import Mathlib

/-
Verification development for the NATS client sample
(samples/net/nats/src/nats.c).

The C code is shallowly embedded: C strings become `List Char` (the bytes
before the terminating NUL), buffers with explicit lengths become
`List Char` of that length, reading one byte past the end of a modelled
string yields the NUL terminator (`cget`), in-place mutation (the
NUL-splitting done by the local `strsep`) becomes `List.set`, and the
vectored transmit path (`transmitv`) is represented by the list of
segments handed to it.  Machine integers on the 32-bit RISC-V target are
modelled as `Nat` with explicit `% 2 ^ 32` where overflow matters.
-/

set_option maxRecDepth 8000

namespace Nats

/- errno values (Zephyr minimal libc / newlib numbering). -/

def EPERM : Int := 1

def ENOENT : Int := 2

def ENOMEM : Int := 12

def EINVAL : Int := 22

def ERANGE : Int := 34

def ENOTSUP : Int := 134

/-- The NUL terminator byte. -/
def NUL : Char := Char.ofNat 0

/-- Read byte `i` of a NUL-terminated C string modelled as the list of its
bytes before the terminator: positions past the end read as NUL. -/
def cget (s : List Char) (i : Nat) : Char := s.getD i NUL

/-- The C string starting at offset `off` inside buffer `arr`: the bytes up
to (not including) the first NUL. -/
def cstrAt (arr : List Char) (off : Nat) : List Char :=
  (arr.drop off).takeWhile (fun c => c != NUL)

/-- `strlen` on a modelled buffer. -/
def strlen (s : List Char) : Nat :=
  ((s.takeWhile (fun c => c != NUL))).length

/-- Reading `n` bytes starting at a C string `s`: bytes past the string's
extent read as NUL (the terminator). -/
def cbytes (s : List Char) (n : Nat) : List Char :=
  s.take n ++ List.replicate (n - s.length) NUL

/-- `isalnum` of ctype.h in the C locale (ASCII letters and digits). -/
def c_isalnum (c : Char) : Bool := c.isAlpha || c.isDigit

/-- `isspace` of ctype.h in the C locale. -/
def c_isspace (c : Char) : Bool :=
  c = ' ' || c = '\t' || c = '\n' || c = '\x0b' || c = '\x0c' || c = '\r'

/- ---------------------------------------------------------------------
   Grammar validators (nats.c, is_subject_valid / is_sid_valid)
   --------------------------------------------------------------------- -/

/-- The loop body of `is_subject_valid`: `pos` is the current index, the
fuel is the number of remaining iterations (`len - pos`), `last` is the
previously inspected character (`'\0'` initially). -/
def subjectLoop (s : List Char) : Nat → Nat → Char → Bool
  | 0, _, _ => true
  | f+1, pos, last =>
    if cget s pos = '>' then
      if cget s (pos+1) = NUL then subjectLoop s f (pos+1) (cget s pos) else false
    else if cget s pos = '.' ∨ cget s pos = '*' then
      if last = cget s pos then false else subjectLoop s f (pos+1) (cget s pos)
    else if c_isalnum (cget s pos) then subjectLoop s f (pos+1) (cget s pos)
    else false

/-- `is_subject_valid(subject, len)`; a NULL subject is `none`. -/
def is_subject_valid : Option (List Char) → Nat → Bool
  | none, _ => false
  | some s, len => subjectLoop s len 0 NUL

/-- `is_sid_valid(sid, len)`; a NULL sid is `none`. -/
def is_sid_valid : Option (List Char) → Nat → Bool
  | none, _ => false
  | some s, len => (List.range len).all (fun pos => c_isalnum (cget s pos))

/-- The subject grammar as the specification words it: every character is
alphanumeric or one of `.`, `*`, `>`; no two consecutive identical
delimiter/wildcard characters; `>` only as the final character. -/
def SubjectGrammar (s : List Char) : Prop :=
  ∀ i, i < s.length →
    (c_isalnum (cget s i) = true ∨ cget s i = '.' ∨ cget s i = '*' ∨ cget s i = '>') ∧
    (cget s i = '>' → i + 1 = s.length) ∧
    ((cget s i = '.' ∨ cget s i = '*' ∨ cget s i = '>') → 0 < i → cget s (i - 1) ≠ cget s i)

/-- One iteration of the subject-validation loop as a predicate: `prev` is
the character inspected just before index `i`. -/
def subjectStep (s : List Char) (i : Nat) (prev : Char) : Prop :=
  if cget s i = '>' then cget s (i+1) = NUL
  else if cget s i = '.' ∨ cget s i = '*' then prev ≠ cget s i
  else c_isalnum (cget s i) = true

theorem cget_mem : ∀ (s : List Char) (i : Nat), i < s.length → cget s i ∈ s := by
  intro s
  induction s with
  | nil => intro i h; simp at h
  | cons x xs ih =>
      intro i h
      cases i with
      | zero => exact List.mem_cons_self x xs
      | succ n =>
          have : cget (x :: xs) (n+1) = cget xs n := rfl
          rw [this]
          exact List.mem_cons_of_mem _ (ih n (by simpa using h))

theorem cget_ne_nul (s : List Char) (h : NUL ∉ s) (i : Nat) (hi : i < s.length) :
    cget s i ≠ NUL := by
  intro heq
  exact h (heq ▸ cget_mem s i hi)

theorem cget_of_le : ∀ (s : List Char) (i : Nat), s.length ≤ i → cget s i = NUL := by
  intro s
  induction s with
  | nil => intro i _; cases i <;> rfl
  | cons x xs ih =>
      intro i h
      cases i with
      | zero => simp at h
      | succ n => exact ih n (by simpa using h)

theorem subjectLoop_iff (s : List Char) :
    ∀ (f pos : Nat) (last : Char),
      subjectLoop s f pos last = true ↔
        ∀ i, pos ≤ i → i < pos + f →
          subjectStep s i (if i = pos then last else cget s (i - 1)) := by
  intro f
  induction f with
  | zero =>
      intro pos last
      constructor
      · intro _ i h1 h2
        exfalso; omega
      · intro _
        rfl
  | succ f ih =>
      intro pos last
      have hsplit :
          (∀ i, pos ≤ i → i < pos + (f+1) →
              subjectStep s i (if i = pos then last else cget s (i - 1))) ↔
          (subjectStep s pos last ∧
            ∀ i, pos + 1 ≤ i → i < (pos + 1) + f →
              subjectStep s i (if i = pos + 1 then cget s pos else cget s (i - 1))) := by
        constructor
        · intro h
          refine ⟨by simpa using h pos (Nat.le_refl pos) (by omega), ?_⟩
          intro i h1 h2
          have h3 := h i (by omega) (by omega)
          have h4 : (if i = pos then last else cget s (i-1)) =
              (if i = pos + 1 then cget s pos else cget s (i-1)) := by
            rw [if_neg (by omega : ¬ i = pos)]
            by_cases h5 : i = pos + 1
            · rw [if_pos h5, h5]
              simp
            · rw [if_neg h5]
          rwa [h4] at h3
        · rintro ⟨hp, h⟩ i h1 h2
          by_cases h3 : i = pos
          · subst h3; simpa using hp
          · have h4 := h i (by omega) (by omega)
            have h5 : (if i = pos + 1 then cget s pos else cget s (i-1)) =
                (if i = pos then last else cget s (i-1)) := by
              rw [if_neg h3]
              by_cases h6 : i = pos + 1
              · rw [if_pos h6, h6]
                simp
              · rw [if_neg h6]
            rwa [h5] at h4
      rw [hsplit, ← ih (pos+1) (cget s pos), subjectLoop]
      by_cases hgt : cget s pos = '>'
      · rw [if_pos hgt]
        by_cases hnx : cget s (pos+1) = NUL
        · rw [if_pos hnx]
          constructor
          · intro h
            exact ⟨by simp [subjectStep, hgt, hnx], h⟩
          · intro h
            exact h.2
        · rw [if_neg hnx]
          constructor
          · intro h; cases h
          · intro h
            exfalso
            have := h.1
            simp [subjectStep, hgt] at this
            exact hnx this
      · rw [if_neg hgt]
        by_cases hdw : cget s pos = '.' ∨ cget s pos = '*'
        · rw [if_pos hdw]
          by_cases hl : last = cget s pos
          · rw [if_pos hl]
            constructor
            · intro h; cases h
            · intro h
              exfalso
              have := h.1
              simp [subjectStep, hgt, hdw] at this
              exact this hl
          · rw [if_neg hl]
            constructor
            · intro h
              refine ⟨?_, h⟩
              simp [subjectStep, hgt, hdw]
              exact hl
            · intro h
              exact h.2
        · rw [if_neg hdw]
          by_cases han : c_isalnum (cget s pos) = true
          · rw [if_pos han]
            constructor
            · intro h
              exact ⟨by simp [subjectStep, hgt, hdw, han], h⟩
            · intro h
              exact h.2
          · rw [if_neg han]
            constructor
            · intro h; cases h
            · intro h
              exfalso
              have := h.1
              simp [subjectStep, hgt, hdw] at this
              exact han this

theorem is_subject_valid_iff_grammar (s : List Char) (hnul : NUL ∉ s) :
    is_subject_valid (some s) s.length = true ↔ SubjectGrammar s := by
  show subjectLoop s s.length 0 NUL = true ↔ SubjectGrammar s
  rw [subjectLoop_iff]
  constructor
  · intro h i hi
    have hstep := h i (Nat.zero_le i) (by omega)
    by_cases hc : cget s i = '>'
    · have h1 : cget s (i+1) = NUL := by
        simpa [subjectStep, hc] using hstep
      have h2 : i + 1 = s.length := by
        by_contra hne
        exact cget_ne_nul s hnul (i+1) (by omega) h1
      refine ⟨Or.inr (Or.inr (Or.inr hc)), fun _ => h2, ?_⟩
      intro _ hpos heq
      have hprev : cget s (i-1) = '>' := heq.trans hc
      have hstep2 := h (i-1) (Nat.zero_le _) (by omega)
      have h3 : cget s ((i-1)+1) = NUL := by
        simpa [subjectStep, hprev] using hstep2
      rw [(by omega : (i-1)+1 = i), hc] at h3
      exact absurd h3 (by decide)
    · by_cases hdw : cget s i = '.' ∨ cget s i = '*'
      · have h1 : (if i = 0 then NUL else cget s (i-1)) ≠ cget s i := by
          simpa [subjectStep, hc, hdw] using hstep
        refine ⟨?_, fun hgt => absurd hgt hc, ?_⟩
        · rcases hdw with h' | h'
          · exact Or.inr (Or.inl h')
          · exact Or.inr (Or.inr (Or.inl h'))
        · intro _ hpos
          rw [if_neg (by omega : ¬ i = 0)] at h1
          exact h1
      · have h1 : c_isalnum (cget s i) = true := by
          simpa [subjectStep, hc, hdw] using hstep
        refine ⟨Or.inl h1, fun hgt => absurd hgt hc, ?_⟩
        intro hin _
        rcases hin with h' | h' | h'
        · exact absurd (Or.inl h') hdw
        · exact absurd (Or.inr h') hdw
        · exact absurd h' hc
  · intro hg i _ hi
    have hi' : i < s.length := by omega
    obtain ⟨hcl, hfin, hcons⟩ := hg i hi'
    by_cases hc : cget s i = '>'
    · simp [subjectStep, hc]
      exact cget_of_le s (i+1) (le_of_eq (hfin hc).symm)
    · by_cases hdw : cget s i = '.' ∨ cget s i = '*'
      · simp [subjectStep, hc, hdw]
        by_cases hz : i = 0
        · subst hz
          simp
          rcases hdw with h' | h' <;> rw [h'] <;> decide
        · rw [if_neg hz]
          exact hcons (by tauto) (by omega)
      · simp [subjectStep, hc, hdw]
        rcases hcl with h1 | h1 | h1 | h1
        · exact h1
        · exact absurd (Or.inl h1) hdw
        · exact absurd (Or.inr h1) hdw
        · exact absurd h1 hc

/- ---------------------------------------------------------------------
   The local strsep helper (nats.c, char_in_set / strsep)
   --------------------------------------------------------------------- -/

/-- `char_in_set(chr, set)`. -/
def char_in_set (chr : Char) (set : List Char) : Bool := set.contains chr

/-- `strchr` over the suffix of a buffer: first index of `c`, stopping at
the first NUL (as `strchr` does for a non-NUL target). -/
def strchrAux (c : Char) : List Char → Option Nat
  | [] => none
  | x :: xs =>
      if x = c then some 0
      else if x = NUL then none
      else (strchrAux c xs).map (fun n => n + 1)

/-- `strchr(arr + start, c)`, as an absolute offset into `arr`. -/
def strchrFrom (arr : List Char) (start : Nat) (c : Char) : Option Nat :=
  (strchrAux c (arr.drop start)).map (fun k => start + k)

/-- The delimiter search of `strsep`: each delimiter is tried over the whole
string in order, and the first delimiter that occurs anywhere wins. -/
def strsepFind (arr : List Char) (start : Nat) : List Char → Option Nat
  | [] => none
  | d :: ds =>
      match strchrFrom arr start d with
      | some i => some i
      | none => strsepFind arr start ds

/-- The run-skipping loop of `strsep`: starting at `j`, skip characters that
are in the delimiter set, stopping at the first non-delimiter or NUL. -/
def strsepSkip (arr : List Char) (delims : List Char) : Nat → Nat → Nat
  | 0, j => j
  | f+1, j =>
      if cget arr j != NUL && char_in_set (cget arr j) delims then
        strsepSkip arr delims f (j+1)
      else j

/-- The local `strsep(strp, delims)` of nats.c, acting on the buffer `arr`
with the string starting at offset `start`: on success it returns the
offset just past the delimiter run together with the mutated buffer (the
found delimiter is overwritten with NUL). -/
def strsep (arr : List Char) (start : Nat) (delims : List Char) :
    Option (Nat × List Char) :=
  match strsepFind arr start delims with
  | none => none
  | some i =>
      some (strsepSkip (arr.set i NUL) delims (arr.set i NUL).length (i+1),
            arr.set i NUL)

theorem strsepSkip_ge (arr delims : List Char) :
    ∀ (f j : Nat), j ≤ strsepSkip arr delims f j := by
  intro f
  induction f with
  | zero => intro j; exact Nat.le_refl j
  | succ f ih =>
      intro j
      rw [strsepSkip]
      split
      · exact Nat.le_trans (Nat.le_succ j) (ih (j+1))
      · exact Nat.le_refl j

theorem strchrAux_lt (c : Char) :
    ∀ (l : List Char) (k : Nat), strchrAux c l = some k → k < l.length := by
  intro l
  induction l with
  | nil => intro k h; simp [strchrAux] at h
  | cons x xs ih =>
      intro k h
      rw [strchrAux] at h
      by_cases h1 : x = c
      · rw [if_pos h1] at h
        cases h
        simp
      · rw [if_neg h1] at h
        by_cases h2 : x = NUL
        · rw [if_pos h2] at h; cases h
        · rw [if_neg h2] at h
          rcases Option.map_eq_some'.mp h with ⟨k', hk', hkeq⟩
          have := ih k' hk'
          simp
          omega

theorem strchrFrom_lt (arr : List Char) (start : Nat) (c : Char) (i : Nat)
    (h : strchrFrom arr start c = some i) : i < arr.length := by
  rcases Option.map_eq_some'.mp h with ⟨k, hk, hkeq⟩
  have h1 := strchrAux_lt c (arr.drop start) k hk
  rw [List.length_drop] at h1
  omega

theorem strsepFind_lt (arr : List Char) (start : Nat) :
    ∀ (delims : List Char) (i : Nat),
      strsepFind arr start delims = some i → i < arr.length := by
  intro delims
  induction delims with
  | nil => intro i h; simp [strsepFind] at h
  | cons d ds ih =>
      intro i h
      rw [strsepFind] at h
      cases hd : strchrFrom arr start d with
      | some j =>
          rw [hd] at h
          cases h
          exact strchrFrom_lt arr start d i hd
      | none =>
          rw [hd] at h
          exact ih i h

theorem getD_set_self :
    ∀ (l : List Char) (i : Nat) (a d : Char), i < l.length →
      (l.set i a).getD i d = a := by
  intro l
  induction l with
  | nil => intro i a d h; simp at h
  | cons x xs ih =>
      intro i a d h
      cases i with
      | zero => rfl
      | succ n =>
          have : ((x :: xs).set (n+1) a).getD (n+1) d = (xs.set n a).getD n d := rfl
          rw [this]
          exact ih n a d (by simpa using h)

/-- After a successful `strsep`, some position strictly before the returned
offset holds the NUL the call wrote over the delimiter. -/
theorem strsep_nul (arr : List Char) (start : Nat) (delims : List Char)
    (off : Nat) (arr2 : List Char)
    (h : strsep arr start delims = some (off, arr2)) :
    ∃ d, d < off ∧ cget arr2 d = NUL := by
  unfold strsep at h
  cases hf : strsepFind arr start delims with
  | none => rw [hf] at h; cases h
  | some i =>
      rw [hf] at h
      have hi : i < arr.length := strsepFind_lt arr start delims i hf
      cases h
      refine ⟨i, ?_, ?_⟩
      · have := strsepSkip_ge (arr.set i NUL) delims ((arr.set i NUL).length) (i+1)
        omega
      · exact getD_set_self arr i NUL NUL hi

/- ---------------------------------------------------------------------
   Command dispatch (nats.c, handle_server_cmd)
   --------------------------------------------------------------------- -/

/-- The five server operations of the dispatch table. -/
inductive Op
  | info
  | msg
  | ping
  | okAck
  | errAck
deriving DecidableEq

/-- The dispatch table: operation string and handler tag (`CMD(...)`
entries, with `.len = sizeof(cmd_) - 1` being the list length). -/
def cmds : List (List Char × Op) :=
  [("INFO".toList, Op.info), ("MSG".toList, Op.msg), ("PING".toList, Op.ping),
   ("+OK".toList, Op.okAck), ("-ERR".toList, Op.errAck)]

/-- `strncmp(a, b, n) == 0`: the first `n` bytes agree, stopping early at a
common NUL. -/
def strncmpEq (a b : List Char) (i : Nat) : Nat → Bool
  | 0 => true
  | n+1 =>
      if cget a i != cget b i then false
      else if cget a i = NUL then true
      else strncmpEq a b (i+1) n

/-- The routing logic of `handle_server_cmd(nats, cmd, len)` on the
NUL-terminated buffer `cmd` (length `len = cmd.length`): split off the
operation token with `strsep`, recompute `len` as the payload offset, and
scan the dispatch table.  On success it returns the matched operation, the
mutated buffer, and the payload offset and length the handler would be
called with; on failure, the error the function returns. -/
def handle_server_cmd_route (cmd : List Char) :
    Except Int (Op × List Char × Nat × Nat) :=
  match (match strsep (cmd ++ [NUL]) 0 [' ', '\t'] with
         | some r => some r
         | none => strsep (cmd ++ [NUL]) 0 ['\r']) with
  | none => Except.error (-EINVAL)
  | some (off, arr2) =>
      match cmds.find? (fun en => en.1.length == off && strncmpEq en.1 arr2 0 off) with
      | some en => Except.ok (en.2, arr2, off, cmd.length - off)
      | none => Except.error (-ENOENT)

theorem strncmpEq_false (a b : List Char) :
    ∀ (n i d : Nat), i ≤ d → d < i + n → cget b d = NUL →
      (∀ j, i ≤ j → j < i + n → cget a j ≠ NUL) →
      strncmpEq a b i n = false := by
  intro n
  induction n with
  | zero => intro i d h1 h2; omega
  | succ n ih =>
      intro i d h1 h2 hnul hne
      rw [strncmpEq]
      by_cases hab : cget a i = cget b i
      · rw [if_neg (by simp [hab])]
        have hai : cget a i ≠ NUL := hne i (Nat.le_refl i) (by omega)
        rw [if_neg hai]
        have hdi : d ≠ i := by
          intro heq
          subst heq
          exact hai (hab.trans hnul)
        exact ih (i+1) d (by omega) (by omega) hnul
          (fun j hj1 hj2 => hne j (by omega) (by omega))
      · rw [if_pos (by simpa using hab)]

/-- Operation strings of the dispatch table have no interior NUL. -/
theorem cmds_no_nul :
    ∀ en ∈ cmds, ∀ j, j < en.1.length → cget en.1 j ≠ NUL := by
  intro en hen
  have hno : NUL ∉ en.1 := by
    simp [cmds] at hen
    rcases hen with h | h | h | h | h <;> rw [h] <;> decide
  intro j hj
  exact cget_ne_nul en.1 hno j hj

/-- No dispatch-table entry ever matches: the token length computed by
`handle_server_cmd` (`payload - cmd`) always covers the NUL written by
`strsep` over the delimiter, so `strncmp` cannot succeed. -/
theorem cmds_find_none (arr2 : List Char) (off : Nat) (d : Nat)
    (hd : d < off) (hnul : cget arr2 d = NUL) :
    cmds.find? (fun en => en.1.length == off && strncmpEq en.1 arr2 0 off) = none := by
  rw [List.find?_eq_none]
  intro en hen
  by_cases hlen : en.1.length = off
  · have hfalse : strncmpEq en.1 arr2 0 off = false := by
      refine strncmpEq_false en.1 arr2 off 0 d (Nat.zero_le d) (by omega) hnul ?_
      intro j _ hj
      exact cmds_no_nul en hen j (by omega)
    simp [hfalse]
  · simp [hlen]

/-- `handle_server_cmd` never reaches a handler: the recomputed token
length includes the consumed delimiter, so every line produces a negative
error (`-EINVAL` with no delimiter at all, `-ENOENT` otherwise). -/
theorem handle_server_cmd_route_err (cmd : List Char) :
    ∃ e, handle_server_cmd_route cmd = Except.error e ∧ e < 0 := by
  unfold handle_server_cmd_route
  cases h1 : strsep (cmd ++ [NUL]) 0 [' ', '\t'] with
  | none =>
      cases h2 : strsep (cmd ++ [NUL]) 0 ['\r'] with
      | none =>
          refine ⟨-EINVAL, ?_, by norm_num [EINVAL]⟩
          simp [h1, h2]
      | some p =>
          obtain ⟨off, arr2⟩ := p
          obtain ⟨d, hd, hnul⟩ := strsep_nul _ _ _ _ _ h2
          refine ⟨-ENOENT, ?_, by norm_num [ENOENT]⟩
          simp [h1, h2, cmds_find_none arr2 off d hd hnul]
  | some p =>
      obtain ⟨off, arr2⟩ := p
      obtain ⟨d, hd, hnul⟩ := strsep_nul _ _ _ _ _ h1
      refine ⟨-ENOENT, ?_, by norm_num [ENOENT]⟩
      simp [h1, cmds_find_none arr2 off d hd hnul]

/- ---------------------------------------------------------------------
   strtoul (Zephyr minimal libc, BSD-derived, base 10) and
   handle_server_msg (nats.c)
   --------------------------------------------------------------------- -/

/-- `ULONG_MAX` on the 32-bit RISC-V target. -/
def ULONG_MAX : Nat := 2 ^ 32 - 1

/-- Leading-whitespace skip of `strtoul`. -/
def skipSpaces (arr : List Char) : Nat → Nat → Nat
  | 0, i => i
  | f+1, i => if c_isspace (cget arr i) then skipSpaces arr f (i+1) else i

/-- The digit-accumulation loop of `strtoul` (base 10): returns the
accumulator, the index one past the last digit, and the overflow flag.
`cutoff`/`cutlim` are `ULONG_MAX / 10` and `ULONG_MAX % 10`. -/
def digitsLoop (arr : List Char) : Nat → Nat → Nat → Bool → (Nat × Nat × Bool)
  | 0, i, acc, ov => (acc, i, ov)
  | f+1, i, acc, ov =>
      if (cget arr i).isDigit then
        let d := (cget arr i).toNat - 48
        if ov then digitsLoop arr f (i+1) acc true
        else if acc > ULONG_MAX / 10 ∨ (acc = ULONG_MAX / 10 ∧ d > ULONG_MAX % 10) then
          digitsLoop arr f (i+1) acc true
        else digitsLoop arr f (i+1) (acc * 10 + d) false
      else (acc, i, ov)

/-- `strtoul(arr + start, &end, 10)` as (value, end offset, ERANGE flag):
skips whitespace, accepts an optional sign, accumulates base-10 digits with
saturation to `ULONG_MAX` on overflow; when no digit is converted the value
is 0 and the end offset is the original start. -/
def strtoul (arr : List Char) (start : Nat) : Nat × Nat × Bool :=
  let i1 := skipSpaces arr (arr.length + 1) start
  let i2 := if cget arr i1 = '-' ∨ cget arr i1 = '+' then i1 + 1 else i1
  let neg := cget arr i1 = '-'
  match digitsLoop arr (arr.length + 1) i2 0 false with
  | (acc, endI, ov) =>
      if endI = i2 then (0, start, false)
      else if ov then (ULONG_MAX, endI, true)
      else ((if neg then (2 ^ 32 - acc) % 2 ^ 32 else acc), endI, false)

/-- The `struct nats_msg` handed to the application callback; NULL string
pointers are `none`. -/
structure nats_msg where
  subject : List Char
  sid : Option (List Char)
  reply_to : Option (List Char)
  payload : List Char
  payload_len : Nat
deriving DecidableEq

/-- `handle_server_msg(nats, payload, len)` on the buffer `payload`
(length `len = payload.length`), with `prev_end` the byte that sits at
`payload[len]` in the surrounding buffer (saved and restored by the
function; it is the dispatcher's NUL terminator in every real call).
Returns the error the function returns, or the `nats_msg` the message
callback is invoked with. -/
def handle_server_msg (payload : List Char) (prev_end : Char) :
    Except Int nats_msg :=
  let len := payload.length
  let arr0 := payload ++ [NUL]
  let s1 := strsep arr0 0 [' ', '\t']
  let arr1 := match s1 with | none => arr0 | some r => r.2
  let sidOff := match s1 with | none => none | some r => some r.1
  let s2 := match sidOff with | none => none | some so => strsep arr1 so [' ', '\t']
  let arr2 := match s2 with | none => arr1 | some r => r.2
  let replyOff := match s2 with | none => none | some r => some r.1
  let s3 := match replyOff with
            | none =>
                match sidOff with
                | none => none
                | some so => strsep arr2 so ['\r']
            | some ro => strsep arr2 ro ['\r']
  let arr3 := match s3 with | none => arr2 | some r => r.2
  let bytesOff := match s3 with | none => none | some r => some r.1
  let arr4 := arr3.set len prev_end
  match bytesOff with
  | none => Except.error (-EINVAL)
  | some bo =>
      match strtoul arr4 bo with
      | (v, endOff, rangeErr) =>
          if rangeErr then Except.error (-ERANGE)
          else if v ≥ ((2 ^ 32 + (len : Int) - (endOff : Int)).toNat % 2 ^ 32) then
            Except.error (-EINVAL)
          else
            Except.ok ⟨cstrAt arr4 0, sidOff.map (cstrAt arr4),
                       replyOff.map (cstrAt arr4),
                       (arr4.drop (endOff + 2)).take v, v⟩

/- ---------------------------------------------------------------------
   handle_server_info (nats.c) with its collaborators
   --------------------------------------------------------------------- -/

/-- The outcome of a nats.c function that may transmit: an error return,
a plain `return 0` with nothing sent, the segments handed to `transmitv`
in one vectored send, or undefined behaviour (a NULL dereference). -/
inductive TxResult
  | err (code : Int)
  | ret0
  | sent (segs : List (List Char))
  | crash
deriving DecidableEq

/-- `struct nats_info`, as filled in by the JSON parse of the INFO payload. -/
structure nats_info where
  server_id : List Char
  version : List Char
  go : List Char
  host : List Char
  max_payload : Nat
  port : Nat
  ssl_required : Bool
  auth_required : Bool

/-- Modelled from the spec: the JSON string escaper collaborator
(`json_escape` of the repository's JSON library, which is outside src/).
Escapes a character for embedding in a JSON string. -/
def escChar (c : Char) : List Char :=
  if c = '"' then ['\\', '"']
  else if c = '\\' then ['\\', '\\']
  else if c = '\x08' then ['\\', 'b']
  else if c = '\x0c' then ['\\', 'f']
  else if c = '\n' then ['\\', 'n']
  else if c = '\r' then ['\\', 'r']
  else if c = '\t' then ['\\', 't']
  else [c]

/-- Modelled from the spec: `json_escape(str, &len, buf_size)` escapes the
string in place for embedding in a JSON string, failing when the escaped
form exceeds the buffer capacity. -/
def json_escape (s : List Char) (cap : Nat) : Except Int (List Char) :=
  let esc := (s.map escChar).flatten
  if esc.length > cap then Except.error (-ENOMEM) else Except.ok esc

/-- `handle_server_info(nats, payload, len)` from the point where the INFO
payload has been parsed into `info` (the JSON decoder is an external
collaborator).  `on_auth_required` is the configured credential provider:
`none` when no callback is set, otherwise its return code and the
user/password it writes into the 32- and 64-byte buffers. -/
def handle_server_info (info : nats_info)
    (on_auth_required : Option (Int × List Char × List Char)) : TxResult :=
  if info.ssl_required then TxResult.err (-ENOTSUP)
  else if !info.auth_required then TxResult.ret0
  else
    match on_auth_required with
    | none => TxResult.err (-EPERM)
    | some (ret, user, pass) =>
        if ret < 0 then TxResult.err ret
        else
          match json_escape user 32 with
          | Except.error e => TxResult.err e
          | Except.ok user2 =>
              match json_escape pass 64 with
              | Except.error e => TxResult.err e
              | Except.ok pass2 =>
                  TxResult.sent
                    ["CONNECT \x7b\"user\":\"".toList, user2,
                     "\",\"pass\":\"".toList, pass2, "\"\x7d\r\n".toList]

/- ---------------------------------------------------------------------
   Outbound command builders (nats.c, nats_subscribe / nats_unsubscribe /
   nats_publish)
   --------------------------------------------------------------------- -/

/-- The io_vec length expression `len_ ? len_ : strlen(str_)`. -/
def extent (s : List Char) (l : Nat) : Nat := if l ≠ 0 then l else strlen s

/-- Decimal rendering of a `size_t` by `snprintk("%zu")`. -/
def decDigits : Nat → Nat → List Char
  | 0, _ => []
  | f+1, n =>
      if n < 10 then [Char.ofNat (48 + n)]
      else decDigits f (n / 10) ++ [Char.ofNat (48 + n % 10)]

/-- The text `snprintk` produces for `%zu` of `n`. -/
def snprintk_dec (n : Nat) : List Char := decDigits (n + 1) n

/-- `nats_subscribe`: NULL pointers are `none`. -/
def nats_subscribe (subject : Option (List Char)) (subject_len : Nat)
    (queue_group : Option (List Char)) (queue_group_len : Nat)
    (sid : Option (List Char)) (sid_len : Nat) : TxResult :=
  if is_subject_valid subject subject_len = false then TxResult.err (-EINVAL)
  else if is_sid_valid sid sid_len = false then TxResult.err (-EINVAL)
  else
    match subject, sid with
    | some subj, some s =>
        match queue_group with
        | some qg =>
            TxResult.sent
              ["SUB ".toList, cbytes subj (extent subj subject_len), " ".toList,
               cbytes qg (extent qg queue_group_len), " ".toList,
               cbytes s (extent s sid_len), "\r\n".toList]
        | none =>
            TxResult.sent
              ["SUB ".toList, cbytes subj (extent subj subject_len), " ".toList,
               cbytes s (extent s sid_len), "\r\n".toList]
    | _, _ => TxResult.crash

/-- The buffer `char max_msgs_str[3 * sizeof(size_t)]` has 12 bytes on the
32-bit RISC-V target (same size in `nats_publish`). -/
def fmt_buf_size : Nat := 12

/-- `nats_unsubscribe`. -/
def nats_unsubscribe (sid : Option (List Char)) (sid_len : Nat)
    (max_msgs : Nat) : TxResult :=
  if is_sid_valid sid sid_len = false then TxResult.err (-EINVAL)
  else
    match sid with
    | none => TxResult.crash
    | some s =>
        if max_msgs ≠ 0 then
          if fmt_buf_size ≤ (snprintk_dec max_msgs).length then TxResult.err (-ENOMEM)
          else
            TxResult.sent
              ["UNSUB ".toList, cbytes s (extent s sid_len), " ".toList,
               snprintk_dec max_msgs, "\r\n".toList]
        else
          TxResult.sent
            ["UNSUB ".toList, cbytes s (extent s sid_len), "\r\n".toList]

/-- `nats_publish`.  Note two facts of the source reflected here: the
payload is never placed in any io_vec (only the header segments are
transmitted), and the `reply_to == NULL` branch still builds an io_vec
from the NULL pointer (`strlen(reply_to)` or a read of `reply_to_len`
bytes from address 0), which is undefined behaviour (`crash`). -/
def nats_publish (subject : Option (List Char)) (subject_len : Nat)
    (reply_to : Option (List Char)) (reply_to_len : Nat)
    (payload : List Char) (payload_len : Nat) : TxResult :=
  if is_subject_valid subject subject_len = false then TxResult.err (-EINVAL)
  else if fmt_buf_size ≤ (snprintk_dec payload_len).length then TxResult.err (-ENOMEM)
  else
    match subject with
    | none => TxResult.crash
    | some subj =>
        match reply_to with
        | some rt =>
            TxResult.sent
              ["PUB ".toList, cbytes subj (extent subj subject_len), " ".toList,
               cbytes rt (extent rt reply_to_len), " ".toList,
               snprintk_dec payload_len, "\r\n".toList]
        | none => TxResult.crash

/- ---------------------------------------------------------------------
   The receive path (nats.c, receive_cb)
   --------------------------------------------------------------------- -/

/-- `sizeof(cmd_buf)` in `receive_cb`. -/
def cmd_buf_size : Nat := 256

/-- Instrumented trace of one `receive_cb` invocation: the indices of
`cmd_buf` written with stream bytes, the indices written with the line
terminator NUL, the handlers actually invoked, and the complete lines
handed to `handle_server_cmd`. -/
structure RxTrace where
  dataWrites : List Nat
  nulWrites : List Nat
  calls : List Op
  lines : List (List Char)
deriving DecidableEq

/-- Prepend the events of one loop iteration to the trace of the rest. -/
def traceCons (dw nw : List Nat) (cs : List Op) (ls : List (List Char))
    (t : RxTrace) : RxTrace :=
  ⟨dw ++ t.dataWrites, nw ++ t.nulWrites, cs ++ t.calls, ls ++ t.lines⟩

/-- The `while (tmp)` loop of `receive_cb`.  The fragment chain is
`frags` with `pos` the read offset in the head fragment, `cmd` the bytes
accumulated in `cmd_buf` so far (`cmd_len = cmd.length`), and `run`
gives the return value of each command handler (operation, buffer,
payload offset, payload length).  `memchr` scans only the remainder of
the current fragment; on a hit, `len` bytes are copied, the `'\r'` is
consumed, the NUL terminator is written at `cmd_len`, the line is
dispatched, and a negative handler result breaks out of the loop.  The
fuel argument strictly exceeds the iteration count for every delivery. -/
def rxLoop (run : Op → List Char → Nat → Nat → Int) :
    Nat → List (List Char) → Nat → List Char → RxTrace
  | 0, _, _, _ => ⟨[], [], [], []⟩
  | _+1, [], _, _ => ⟨[], [], [], []⟩
  | f+1, cur :: rest, pos, cmd =>
      match (cur.drop pos).findIdx? (fun c => c = '\r') with
      | none =>
          if cmd.length + (cur.length - pos) > cmd_buf_size then ⟨[], [], [], []⟩
          else
            traceCons (List.range' cmd.length (cur.length - pos)) [] [] []
              (rxLoop run f rest 0 (cmd ++ cur.drop pos))
      | some k =>
          if cmd.length + k > cmd_buf_size then ⟨[], [], [], []⟩
          else
            match handle_server_cmd_route (cmd ++ (cur.drop pos).take k) with
            | Except.error e =>
                if e < 0 then
                  ⟨List.range' cmd.length k, [cmd.length + k], [],
                   [cmd ++ (cur.drop pos).take k]⟩
                else
                  traceCons (List.range' cmd.length k) [cmd.length + k] []
                    [cmd ++ (cur.drop pos).take k]
                    (rxLoop run f
                      (if pos + k + 1 = cur.length then rest else cur :: rest)
                      (if pos + k + 1 = cur.length then 0 else pos + k + 1) [])
            | Except.ok (op, a, o, l) =>
                if run op a o l < 0 then
                  ⟨List.range' cmd.length k, [cmd.length + k], [op],
                   [cmd ++ (cur.drop pos).take k]⟩
                else
                  traceCons (List.range' cmd.length k) [cmd.length + k] [op]
                    [cmd ++ (cur.drop pos).take k]
                    (rxLoop run f
                      (if pos + k + 1 = cur.length then rest else cur :: rest)
                      (if pos + k + 1 = cur.length then 0 else pos + k + 1) [])

/-- Enough fuel for any delivery: every iteration either consumes a byte
or a fragment. -/
def rxFuel (frags : List (List Char)) : Nat :=
  (frags.map List.length).sum + frags.length + 1

/-- One invocation of `receive_cb` on one delivery (a chain of net_buf
fragments).  `cmd_buf` and `cmd_len` are local variables of the function,
so every delivery starts with an empty accumulation buffer. -/
def receive_cb (run : Op → List Char → Nat → Nat → Int)
    (frags : List (List Char)) : RxTrace :=
  rxLoop run (rxFuel frags) frags 0 []

/-- The wire bytes of a server PING. -/
def ping_wire : List Char := "PING\r\n".toList

/-- No delivery ever invokes a command handler: every dispatched line hits
the broken table match of `handle_server_cmd` and the loop breaks. -/
theorem rxLoop_calls_nil (run : Op → List Char → Nat → Nat → Int) :
    ∀ (f : Nat) (frags : List (List Char)) (pos : Nat) (cmd : List Char),
      (rxLoop run f frags pos cmd).calls = [] := by
  intro f
  induction f with
  | zero => intro frags pos cmd; rfl
  | succ f ih =>
      intro frags pos cmd
      cases frags with
      | nil => rfl
      | cons cur rest =>
          rw [rxLoop]
          cases hidx : (cur.drop pos).findIdx? (fun c => c = '\r') with
          | none =>
              dsimp only
              by_cases hg : cmd.length + (cur.length - pos) > cmd_buf_size
              · rw [if_pos hg]
              · rw [if_neg hg]
                simp [traceCons, ih]
          | some k =>
              dsimp only
              by_cases hg : cmd.length + k > cmd_buf_size
              · rw [if_pos hg]
              · rw [if_neg hg]
                obtain ⟨e, he, hlt⟩ :=
                  handle_server_cmd_route_err (cmd ++ (cur.drop pos).take k)
                rw [he]
                dsimp only
                rw [if_pos hlt]

theorem receive_cb_calls_nil (run : Op → List Char → Nat → Nat → Int)
    (frags : List (List Char)) : (receive_cb run frags).calls = [] :=
  rxLoop_calls_nil run (rxFuel frags) frags 0 []

/- ---------------------------------------------------------------------
   Supporting lemmas for the claim theorems
   --------------------------------------------------------------------- -/

theorem strlen_eq_length (s : List Char) (h : NUL ∉ s) : strlen s = s.length := by
  induction s with
  | nil => rfl
  | cons x xs ih =>
      have hx : (x != NUL) = true := by
        simp
        intro hx
        exact h (hx ▸ List.mem_cons_self x xs)
      have hxs : NUL ∉ xs := fun hm => h (List.mem_cons_of_mem _ hm)
      simp [strlen, List.takeWhile, hx] at ih ⊢
      exact ih hxs

theorem cbytes_extent_zero (s : List Char) (h : NUL ∉ s) :
    cbytes s (extent s 0) = s := by
  have h1 : extent s 0 = s.length := by
    simp [extent, strlen_eq_length s h]
  rw [h1]
  simp [cbytes]

/- ---------------------------------------------------------------------
   Claim theorems
   --------------------------------------------------------------------- -/

/-- C1: the claim says `handle_server_cmd` invokes the matching handler
exactly when the operation token equals `INFO`/`MSG`/`PING`/`+OK`/`-ERR`
by exact length and content, and fails with `-ENOENT` otherwise.  The code
disagrees: the token length it compares (`payload - cmd`) includes the
delimiter that `strsep` overwrote with NUL, so no table entry can ever
match.  Every line is rejected: `-EINVAL` when the line has no
space/tab/CR at all (e.g. the `PING` line the reassembler produces), and
`-ENOENT` otherwise — even for a perfectly formed `INFO`/`MSG` line. -/
theorem c1_dispatch_never_matches :
    (∀ cmd : List Char, ∃ e : Int,
        handle_server_cmd_route cmd = Except.error e ∧ e < 0) ∧
    handle_server_cmd_route ("PING".toList) = Except.error (-EINVAL) ∧
    handle_server_cmd_route ("INFO x".toList) = Except.error (-ENOENT) ∧
    handle_server_cmd_route ("MSG a s1 5".toList) = Except.error (-ENOENT) :=
  ⟨handle_server_cmd_route_err, rfl, rfl, rfl⟩

/-- C2: the claim says every split of `"PING\r\n"` across two consecutive
deliveries produces exactly one PING dispatch.  The code produces zero:
the accumulation buffer is local to `receive_cb` (no resumption across
deliveries is possible), and the dispatcher never reaches any handler.
The theorem shows that for every split position, no handler at all is
invoked across the two deliveries, nor when the line arrives unsplit. -/
theorem c2_ping_never_dispatched :
    ∀ (run : Op → List Char → Nat → Nat → Int) (i : Nat),
      (receive_cb run [ping_wire.take i]).calls = [] ∧
      (receive_cb run [ping_wire.drop i]).calls = [] ∧
      (receive_cb run [ping_wire]).calls = [] :=
  fun run i => ⟨receive_cb_calls_nil run _, receive_cb_calls_nil run _,
                receive_cb_calls_nil run _⟩

/-- C3: the claim says `handle_server_msg` parses
`<subject> <sid> [<reply-to>] <size>`, rejects a size not strictly smaller
than the remaining bytes, and otherwise invokes the callback with exactly
the parsed fields.  On the unit `"subj s1 5\r\nhello"` the code instead
invokes the callback with `reply_to = "5"` (the size token), `payload_len
= 0` and an empty payload, because `strtoul` is applied to the bytes after
the first CR (the payload body, here `"\nhello"`, which contains no
digits) rather than to the size token.  A header-only unit (no CR, as the
reassembler actually delivers) is always rejected with `-EINVAL`. -/
theorem c3_msg_parses_wrong_fields :
    handle_server_msg ("subj s1 5\r\nhello".toList) NUL =
      Except.ok ⟨"subj".toList, some ("s1".toList), some ("5".toList), [], 0⟩ ∧
    handle_server_msg ("subj s1 5".toList) NUL = Except.error (-EINVAL) :=
  ⟨rfl, rfl⟩

/-- C4: the claim says `nats_publish` emits
`PUB <subject> [<reply_to>] <payload_len>\r\n` followed by the payload
bytes in one vectored send.  The code passes only the header segments to
`transmitv`: the payload appears in no io_vec, so the transmitted bytes
for subject `foo`, reply-to `bar`, payload `"hi"` are exactly
`PUB foo bar 2\r\n` with no payload following. -/
theorem c4_publish_omits_payload :
    nats_publish (some ("foo".toList)) 3 (some ("bar".toList)) 3
        ("hi".toList) 2 =
      TxResult.sent ["PUB ".toList, "foo".toList, " ".toList, "bar".toList,
                     " ".toList, "2".toList, "\r\n".toList] ∧
    List.flatten ["PUB ".toList, "foo".toList, " ".toList, "bar".toList,
                  " ".toList, "2".toList, "\r\n".toList] =
      "PUB foo bar 2\r\n".toList ∧
    ("PUB foo bar 2\r\n".toList : List Char) ≠
      "PUB foo bar 2\r\n".toList ++ "hi".toList :=
  ⟨by decide, by decide, by decide⟩

/-- C5: `handle_server_info` fails with `-ENOTSUP` whenever `ssl_required`
is set (regardless of `auth_required`); succeeds with no transmission when
neither TLS nor auth is required; fails with `-EPERM` when auth is
required but no provider callback is configured; and with a provider
yielding user `"a"` and pass `"b"` transmits exactly
`CONNECT {"user":"a","pass":"b"}\r\n`. -/
theorem c5_info_handshake :
    (∀ (info : nats_info) (auth : Option (Int × List Char × List Char)),
        info.ssl_required = true →
        handle_server_info info auth = TxResult.err (-ENOTSUP)) ∧
    (∀ (info : nats_info) (auth : Option (Int × List Char × List Char)),
        info.ssl_required = false → info.auth_required = false →
        handle_server_info info auth = TxResult.ret0) ∧
    (∀ info : nats_info,
        info.ssl_required = false → info.auth_required = true →
        handle_server_info info none = TxResult.err (-EPERM)) ∧
    (∀ info : nats_info,
        info.ssl_required = false → info.auth_required = true →
        ∃ segs, handle_server_info info (some (0, "a".toList, "b".toList)) =
            TxResult.sent segs ∧
          segs.flatten = "CONNECT \x7b\"user\":\"a\",\"pass\":\"b\"\x7d\r\n".toList) := by
  refine ⟨?_, ?_, ?_, ?_⟩
  · intro info auth h
    simp [handle_server_info, h]
  · intro info auth h1 h2
    simp [handle_server_info, h1, h2]
  · intro info h1 h2
    simp [handle_server_info, h1, h2]
  · intro info h1 h2
    refine ⟨["CONNECT \x7b\"user\":\"".toList, "a".toList, "\",\"pass\":\"".toList,
             "b".toList, "\"\x7d\r\n".toList], ?_, by decide⟩
    simp [handle_server_info, h1, h2]
    decide

/-- Witness for C5 at concrete `nats_info` records. -/
theorem c5_info_handshake_witness :
    handle_server_info ⟨[], [], [], [], 0, 0, true, true⟩ none =
      TxResult.err (-ENOTSUP) ∧
    handle_server_info ⟨[], [], [], [], 0, 0, false, false⟩ none = TxResult.ret0 ∧
    handle_server_info ⟨[], [], [], [], 0, 0, false, true⟩ none =
      TxResult.err (-EPERM) ∧
    ∃ segs, handle_server_info ⟨[], [], [], [], 0, 0, false, true⟩
        (some (0, "a".toList, "b".toList)) = TxResult.sent segs ∧
      segs.flatten = "CONNECT \x7b\"user\":\"a\",\"pass\":\"b\"\x7d\r\n".toList :=
  ⟨c5_info_handshake.1 _ none rfl,
   c5_info_handshake.2.1 _ none rfl rfl,
   c5_info_handshake.2.2.1 _ rfl rfl,
   c5_info_handshake.2.2.2 _ rfl rfl⟩

/-- C6: the claim says a line that would overflow the 256-byte reassembly
buffer is dropped with a `LineTooLong` signal to the caller.  The code
drops it silently: on a 300-byte line the loop `break`s before any write
or dispatch, `receive_cb` returns `void`, and no error of any kind is
surfaced — the trace of the whole delivery is empty (the dropped-without-
dispatch half of the claim holds; the signalling half does not exist in
the code). -/
theorem c6_overflow_silent_drop :
    ∀ run : Op → List Char → Nat → Nat → Int,
      receive_cb run [List.replicate 300 'A' ++ "\r\n".toList] =
        ⟨[], [], [], []⟩ :=
  fun _ => rfl

/-- C7 counterexample: the claim says empty input is invalid, but
`is_subject_valid("", 0)` executes zero loop iterations and returns true. -/
theorem c7_empty_subject_accepted :
    is_subject_valid (some ([] : List Char)) 0 = true := rfl

/-- C7 (amended): `is_subject_valid` accepts exactly the non-null subjects
in which every character is alphanumeric or one of `.`, `*`, `>`, no two
consecutive identical delimiter/wildcard characters occur, and `>` occurs
only as the final character; null is rejected, and the claim's test vector
holds except that the empty subject (zero characters inspected) is
accepted, not rejected. -/
theorem c7_subject_validator :
    (∀ s : List Char, NUL ∉ s →
        (is_subject_valid (some s) s.length = true ↔ SubjectGrammar s)) ∧
    (∀ len : Nat, is_subject_valid none len = false) ∧
    is_subject_valid (some ("foo.bar".toList)) 7 = true ∧
    is_subject_valid (some ("foo..bar".toList)) 8 = false ∧
    is_subject_valid (some ("foo.>".toList)) 5 = true ∧
    is_subject_valid (some ("foo.>.bar".toList)) 9 = false ∧
    is_subject_valid (some ("*.foo".toList)) 5 = true ∧
    is_subject_valid (some ("**".toList)) 2 = false ∧
    is_subject_valid (some ([] : List Char)) 0 = true :=
  ⟨is_subject_valid_iff_grammar, fun _ => rfl, by decide, by decide, by decide,
   by decide, by decide, by decide, rfl⟩

/-- Witness for C7 at a concrete subject. -/
theorem c7_subject_validator_witness :
    is_subject_valid (some ("foo.bar".toList)) ("foo.bar".toList).length = true ↔
      SubjectGrammar ("foo.bar".toList) :=
  c7_subject_validator.1 ("foo.bar".toList) (by decide)

/-- C8: every outbound builder rejects a subject or sid that fails grammar
validation with `-EINVAL` before anything is handed to the transport (the
`err` outcome is produced by the early `return -EINVAL`, before any
`transmitv` call). -/
theorem c8_no_send_on_invalid :
    (∀ (subject : Option (List Char)) (subject_len : Nat)
        (queue_group : Option (List Char)) (queue_group_len : Nat)
        (sid : Option (List Char)) (sid_len : Nat),
        is_subject_valid subject subject_len = false ∨
          is_sid_valid sid sid_len = false →
        nats_subscribe subject subject_len queue_group queue_group_len
            sid sid_len = TxResult.err (-EINVAL)) ∧
    (∀ (sid : Option (List Char)) (sid_len max_msgs : Nat),
        is_sid_valid sid sid_len = false →
        nats_unsubscribe sid sid_len max_msgs = TxResult.err (-EINVAL)) ∧
    (∀ (subject : Option (List Char)) (subject_len : Nat)
        (reply_to : Option (List Char)) (reply_to_len : Nat)
        (payload : List Char) (payload_len : Nat),
        is_subject_valid subject subject_len = false →
        nats_publish subject subject_len reply_to reply_to_len
            payload payload_len = TxResult.err (-EINVAL)) := by
  refine ⟨?_, ?_, ?_⟩
  · intro subject subject_len queue_group queue_group_len sid sid_len h
    rcases h with h | h
    · simp [nats_subscribe, h]
    · by_cases hs : is_subject_valid subject subject_len = false
      · simp [nats_subscribe, hs]
      · simp [nats_subscribe, hs, h]
  · intro sid sid_len max_msgs h
    simp [nats_unsubscribe, h]
  · intro subject subject_len reply_to reply_to_len payload payload_len h
    simp [nats_publish, h]

/-- Witness for C8 at concrete invalid arguments. -/
theorem c8_no_send_on_invalid_witness :
    nats_subscribe (some ("foo..bar".toList)) 8 none 0 (some ("s1".toList)) 2 =
      TxResult.err (-EINVAL) ∧
    nats_unsubscribe (some ("s!".toList)) 2 0 = TxResult.err (-EINVAL) ∧
    nats_publish (some ("**".toList)) 2 none 0 [] 0 = TxResult.err (-EINVAL) :=
  ⟨c8_no_send_on_invalid.1 _ _ none 0 _ _ (Or.inl (by decide)),
   c8_no_send_on_invalid.2.1 _ _ 0 (by decide),
   c8_no_send_on_invalid.2.2 _ _ none 0 [] 0 (by decide)⟩

/-- C9: the claim says every write into `cmd_buf`, including the line
terminator, stays below index 256.  The guard `cmd_len + len >
sizeof(cmd_buf)` admits a line of exactly 256 bytes, after which the
terminator is written at `cmd_buf[256]` — one byte past the 256-byte
buffer: on that delivery the trace records the NUL write at index
`cmd_buf_size` itself (valid indices end at `cmd_buf_size - 1`). -/
theorem c9_terminator_out_of_bounds :
    ∀ run : Op → List Char → Nat → Nat → Int,
      (receive_cb run [List.replicate 256 'A' ++ "\r\n".toList]).nulWrites =
        [cmd_buf_size] :=
  fun _ => rfl

/-- C10: with an explicit subject length of zero the validator inspects
zero characters (any non-null subject passes), while the transmitted
io_vec falls back to `strlen(subject)` — so the whole string is sent
regardless of its grammar. -/
theorem c10_zero_length_subject :
    (∀ s : List Char, is_subject_valid (some s) 0 = true) ∧
    (∀ (s sid : List Char) (sid_len : Nat), NUL ∉ s →
        is_sid_valid (some sid) sid_len = true →
        nats_subscribe (some s) 0 none 0 (some sid) sid_len =
          TxResult.sent ["SUB ".toList, s, " ".toList,
                         cbytes sid (extent sid sid_len), "\r\n".toList]) ∧
    (∀ (s rt payload : List Char) (rtl payload_len : Nat), NUL ∉ s →
        (snprintk_dec payload_len).length < fmt_buf_size →
        nats_publish (some s) 0 (some rt) rtl payload payload_len =
          TxResult.sent ["PUB ".toList, s, " ".toList,
                         cbytes rt (extent rt rtl), " ".toList,
                         snprintk_dec payload_len, "\r\n".toList]) := by
  refine ⟨fun s => rfl, ?_, ?_⟩
  · intro s sid sid_len hnul hsid
    have h0 : is_subject_valid (some s) 0 = true := rfl
    simp [nats_subscribe, h0, hsid, cbytes_extent_zero s hnul]
  · intro s rt payload rtl payload_len hnul hfit
    have h0 : is_subject_valid (some s) 0 = true := rfl
    simp [nats_publish, h0, Nat.not_le.mpr hfit, cbytes_extent_zero s hnul]

/-- Witness for C10: a zero-length call with the grammar-invalid subject
`"@@"` transmits the whole string. -/
theorem c10_zero_length_subject_witness :
    is_subject_valid (some ("@@".toList)) 0 = true ∧
    nats_subscribe (some ("@@".toList)) 0 none 0 (some ("s1".toList)) 2 =
      TxResult.sent ["SUB ".toList, "@@".toList, " ".toList,
                     cbytes ("s1".toList) (extent ("s1".toList) 2),
                     "\r\n".toList] ∧
    nats_publish (some ("@@".toList)) 0 (some ("r".toList)) 1 ("x".toList) 1 =
      TxResult.sent ["PUB ".toList, "@@".toList, " ".toList,
                     cbytes ("r".toList) (extent ("r".toList) 1), " ".toList,
                     snprintk_dec 1, "\r\n".toList] :=
  ⟨c10_zero_length_subject.1 _,
   c10_zero_length_subject.2.1 ("@@".toList) ("s1".toList) 2 (by decide) (by decide),
   c10_zero_length_subject.2.2 ("@@".toList) ("r".toList) ("x".toList) 1 1
     (by decide) (by decide)⟩

end Nats
